import Mathlib

/-!
Shallow embedding of the publish/subscribe dispatcher in `src/app.ts`
(classes `PublishSubscribeService`, `MachineSaleEvent`, `MachineRefillEvent`).

Modelling choices:
* A subscriber instance is identified by a natural number `hid`.  Its
  JavaScript class name (`constructor.name`) and the body of its `handle`
  method are fixed attributes of the instance, collected in an `Env`.
* A `handle` body is modelled as the sequence of re-entrant dispatcher
  calls it performs (`subscribe`, `unsubscribe`), possibly ending in a
  thrown exception.  The `isPending` field of `ISubscriber` is written
  only by the dispatcher in the source, so handler bodies do not touch it.
* The registry `this.handlers : IHandler[]` is a `List IHandler`;
  `subscribe`/`unsubscribe` act on that list exactly as the source does.
* `publish` additionally returns a trace: one `Invocation` per `handle`
  call, recording the invoked instance and the value of every instance's
  `isPending` flag at the moment the call starts, plus a `Bool` that is
  `true` when a handler body threw (the exception propagates out of
  `publish` and the remaining recipients are skipped).
-/

namespace SimplePubSub

/-- A registry record, mirroring `IHandler` of the source: an event type
tag paired with the subscriber instance registered for it. -/
structure IHandler where
  type : String
  handler : Nat
deriving DecidableEq, Repr

/-- One re-entrant dispatcher call performed inside a `handle` body, or a
thrown exception. -/
inductive Action where
  | subscribeAct : String → Nat → Action
  | unsubscribeAct : String → Option Nat → Action
  | throwAct : Action
deriving DecidableEq, Repr

/-- The fixed attributes of the subscriber instances: `kindOf` is the
JavaScript `constructor.name` of an instance, `behavior` the body of its
`handle` method. -/
structure Env where
  kindOf : Nat → String
  behavior : Nat → List Action

/-- `PublishSubscribeService.subscribe`: look for the first record whose
`type` matches; if its handler has the same constructor name, return
unchanged, otherwise push a new record. -/
def subscribe (env : Env) (t : String) (handler : Nat)
    (handlers : List IHandler) : List IHandler :=
  match handlers.find? (fun it => it.type == t) with
  | some existingHandler =>
      if env.kindOf existingHandler.handler == env.kindOf handler then
        handlers
      else
        handlers ++ [⟨t, handler⟩]
  | none => handlers ++ [⟨t, handler⟩]

/-- `PublishSubscribeService.unsubscribe`: keep the records for which the
filter callback returns `true` (type differs, or — when a handler argument
is supplied — the constructor name differs). -/
def unsubscribe (env : Env) (t : String) (handler : Option Nat)
    (handlers : List IHandler) : List IHandler :=
  handlers.filter (fun it =>
    match handler with
    | some h => !(it.type == t) || !(env.kindOf it.handler == env.kindOf h)
    | none => !(it.type == t))

/-- The mutable state the dispatcher touches: the registry plus the
`isPending` field of every subscriber instance. -/
structure ServiceState where
  handlers : List IHandler
  isPending : Nat → Bool

/-- Assignment `instance.isPending = b` for the instance `h`. -/
def setPending (p : Nat → Bool) (h : Nat) (b : Bool) : Nat → Bool :=
  fun n => if n = h then b else p n

/-- The `.map` phase of `publish`: walk the snapshot and perform
`it.handler.isPending = true` for each record. -/
def markAllPending : List IHandler → (Nat → Bool) → (Nat → Bool)
  | [], p => p
  | r :: rest, p => markAllPending rest (setPending p r.handler true)

/-- Run a handler body: each action is a re-entrant call on the live
registry; a throw aborts the body and is reported in the `Bool`. -/
def runActions (env : Env) : List Action → ServiceState → ServiceState × Bool
  | [], s => (s, false)
  | Action.subscribeAct t h :: rest, s =>
      runActions env rest { s with handlers := subscribe env t h s.handlers }
  | Action.unsubscribeAct t h :: rest, s =>
      runActions env rest { s with handlers := unsubscribe env t h s.handlers }
  | Action.throwAct :: _, s => (s, true)

/-- Trace entry for one `handler.handle(this, event)` call: the invoked
instance and every instance's `isPending` flag at the moment the call
begins. -/
structure Invocation where
  hid : Nat
  pendingAt : Nat → Bool

/-- The `.forEach` phase of `publish`: for each snapshot record invoke the
handler body on the live state, then perform `handler.isPending = false`;
a thrown exception propagates at once, skipping the remaining records and
the pending flag clean-up of the thrower. -/
def dispatchLoop (env : Env) :
    List IHandler → ServiceState → List Invocation →
      ServiceState × List Invocation × Bool
  | [], s, trace => (s, trace, false)
  | r :: rest, s, trace =>
      let inv : Invocation := ⟨r.handler, s.isPending⟩
      let res := runActions env (env.behavior r.handler) s
      if res.2 then
        (res.1, trace ++ [inv], true)
      else
        dispatchLoop env rest
          { res.1 with isPending := setPending res.1.isPending r.handler false }
          (trace ++ [inv])

/-- The dispatcher-facing view of an event, mirroring `IEvent`: the values
returned by `type()` and `machineId()`. -/
structure IEventV where
  etype : String
  emachineId : String
deriving DecidableEq, Repr

/-- The snapshot `publish` iterates over: the spread copy of
`this.handlers` filtered by the event type,
`[...this.handlers].filter(it => it.type === event.type())`. -/
def snapshotOf (s : ServiceState) (e : IEventV) : List IHandler :=
  s.handlers.filter (fun it => it.type == e.etype)

/-- `PublishSubscribeService.publish`: early return on an empty registry;
otherwise copy the registry, filter it by the event type, set every
matching handler's `isPending` flag (the `.map` phase), then dispatch over
the frozen snapshot (the `.forEach` phase). -/
def publish (env : Env) (s : ServiceState) (e : IEventV) :
    ServiceState × List Invocation × Bool :=
  if s.handlers.length = 0 then (s, [], false)
  else
    dispatchLoop env (snapshotOf s e)
      { s with isPending := markAllPending (snapshotOf s e) s.isPending } []

/-- Default trace entry, used only as the fallback value of `List.getD`
when indexing a trace. -/
def dInv : Invocation :=
  ⟨0, fun _ => false⟩

/-- `MachineSaleEvent`: both constructor fields are `readonly`, so the
instance is an immutable value. -/
structure MachineSaleEvent where
  soldField : Int
  machineIdField : String
deriving DecidableEq, Repr

def MachineSaleEvent.machineId (e : MachineSaleEvent) : String :=
  e.machineIdField

def MachineSaleEvent.getSoldQuantity (e : MachineSaleEvent) : Int :=
  e.soldField

def MachineSaleEvent.type (_ : MachineSaleEvent) : String := "sale"

/-- `MachineRefillEvent`: both constructor fields are `readonly`, so the
instance is an immutable value. -/
structure MachineRefillEvent where
  refillField : Int
  machineIdField : String
deriving DecidableEq, Repr

def MachineRefillEvent.machineId (e : MachineRefillEvent) : String :=
  e.machineIdField

def MachineRefillEvent.getRefillQuantity (e : MachineRefillEvent) : Int :=
  e.refillField

def MachineRefillEvent.type (_ : MachineRefillEvent) : String := "refill"

/-- Clearing pass over a list of instance ids: the composite effect on the
pending flags of performing `isPending = false` for each id in turn.  Used
to describe the flag state reached after a prefix of the dispatch loop. -/
def clearAll : List Nat → (Nat → Bool) → (Nat → Bool)
  | [], p => p
  | h :: rest, p => clearAll rest (setPending p h false)

/-- Modelled from the spec (section 4.1, `unsubscribe`): keep a record
unless it matches the removal criterion — its type equals `t` and, when a
handler argument is supplied, its handler has the same handler-kind
identity as the supplied handler.  This definition follows the spec's
words and is compared with `unsubscribe`, which is translated from the
source. -/
def unsubscribeSpec (env : Env) (t : String) (handler : Option Nat)
    (handlers : List IHandler) : List IHandler :=
  handlers.filter (fun it =>
    match handler with
    | some h => !(it.type == t && env.kindOf it.handler == env.kindOf h)
    | none => !(it.type == t))

/-! Concrete subscriber populations used by the scenario theorems below.
Each environment fixes the constructor names and `handle` bodies of a few
instances; unused ids get a default kind and an empty body. -/

/-- Two instances of distinct kinds subscribed to different types,
neither performing re-entrant calls. -/
def envC1 : Env :=
  ⟨fun n => if n = 0 then "SaleSub" else "RefillSub", fun _ => []⟩

def stC1 : ServiceState :=
  ⟨[⟨"sale", 0⟩, ⟨"refill", 1⟩], fun _ => false⟩

/-- Instance 0 has kind `A`, every other instance kind `B`; no re-entrant
calls. -/
def envC2 : Env :=
  ⟨fun n => if n = 0 then "A" else "B", fun _ => []⟩

/-- Two instances of distinct kinds, no re-entrant calls. -/
def envC3 : Env :=
  ⟨fun n => if n = 0 then "C3A" else "C3B", fun _ => []⟩

def stC3 : ServiceState :=
  ⟨[⟨"x", 0⟩, ⟨"x", 1⟩], fun _ => false⟩

/-- Two instances of distinct kinds subscribed to type `w`. -/
def envC3w : Env :=
  ⟨fun n => if n = 0 then "WSub0" else "WSub1", fun _ => []⟩

def stC3w : ServiceState :=
  ⟨[⟨"w", 0⟩, ⟨"w", 1⟩], fun _ => false⟩

/-- Instances 0 and 1 share one kind; instance 2 has a different kind. -/
def envC4 : Env :=
  ⟨fun n => if n ≤ 1 then "SameKind" else "OtherKind", fun _ => []⟩

/-- Three instances of distinct kinds; instance 1's `handle` body calls
`unsubscribe("x", instance 2)` on the live dispatcher. -/
def envC5 : Env :=
  ⟨fun n => if n = 0 then "KindA" else if n = 1 then "KindB" else "KindC",
   fun n => if n = 1 then [Action.unsubscribeAct "x" (some 2)] else []⟩

/-- Registry built by subscribing instances 0, 1, 2 to type `x` in that
order. -/
def regC5 : List IHandler :=
  subscribe envC5 "x" 2 (subscribe envC5 "x" 1 (subscribe envC5 "x" 0 []))

def stC6 : ServiceState :=
  ⟨[⟨"a", 0⟩], fun _ => false⟩

/-- Kinds `A`, `B`, `Y` for instances 0, 1, 2; no re-entrant calls. -/
def envC8 : Env :=
  ⟨fun n => if n = 0 then "A8" else if n = 1 then "B8" else "Y8", fun _ => []⟩

/-- Registry built by subscribing instances 0, 1, 2, 1 to type `x` in that
order: the last call slips past the de-duplication check (which only looks
at the first record of the type), so instance 1 is registered twice. -/
def regC8 : List IHandler :=
  subscribe envC8 "x" 1
    (subscribe envC8 "x" 2 (subscribe envC8 "x" 1 (subscribe envC8 "x" 0 [])))

/-- Two instances of distinct kinds subscribed to type `v`. -/
def envC8w : Env :=
  ⟨fun n => if n = 3 then "VSub3" else "VSub4", fun _ => []⟩

def stC8w : ServiceState :=
  ⟨[⟨"v", 3⟩, ⟨"v", 4⟩], fun _ => false⟩

/-- Kinds `P`, `Q`, `R` for instances 0, 1, 2; instance 2's `handle` body
throws. -/
def envC9 : Env :=
  ⟨fun n => if n = 0 then "P" else if n = 1 then "Q" else "R",
   fun n => if n = 2 then [Action.throwAct] else []⟩

/-- Registry built by subscribing instances 0, 1, 2, 1 to type `t` in that
order (instance 1 ends up registered twice, as in `regC8`). -/
def regC9 : List IHandler :=
  subscribe envC9 "t" 1
    (subscribe envC9 "t" 2 (subscribe envC9 "t" 1 (subscribe envC9 "t" 0 [])))

/-- Three instances of distinct kinds; instance 1's `handle` body throws. -/
def envC9w : Env :=
  ⟨fun n => if n = 0 then "U0" else if n = 1 then "U1" else "U2",
   fun n => if n = 1 then [Action.throwAct] else []⟩

def stC9w : ServiceState :=
  ⟨[⟨"u", 0⟩, ⟨"u", 1⟩, ⟨"u", 2⟩], fun _ => false⟩

/-- Single-kind population with no re-entrant calls. -/
def envC10 : Env :=
  ⟨fun _ => "K10", fun _ => []⟩

/-! Helper lemmas about the embedding. -/

theorem setPending_eval (p : Nat → Bool) (h n : Nat) (b : Bool) :
    setPending p h b n = if n = h then b else p n := rfl

theorem clearAll_eval : ∀ (l : List Nat) (p : Nat → Bool) (n : Nat),
    clearAll l p n = if n ∈ l then false else p n
  | [], p, n => by simp [clearAll]
  | h :: rest, p, n => by
      rw [clearAll, clearAll_eval rest]
      by_cases hn : n = h
      · subst hn
        simp [setPending]
      · simp [setPending, hn]

theorem markAllPending_eval : ∀ (recs : List IHandler) (p : Nat → Bool) (n : Nat),
    markAllPending recs p n = if n ∈ recs.map IHandler.handler then true else p n
  | [], p, n => by simp [markAllPending]
  | r :: rest, p, n => by
      rw [markAllPending, markAllPending_eval rest]
      by_cases hn : n = r.handler
      · subst hn
        simp [setPending]
      · simp [setPending, hn]

theorem runActions_isPending (env : Env) : ∀ (acts : List Action) (s : ServiceState),
    (runActions env acts s).1.isPending = s.isPending
  | [], _ => rfl
  | Action.subscribeAct _ _ :: rest, _ => runActions_isPending env rest _
  | Action.unsubscribeAct _ _ :: rest, _ => runActions_isPending env rest _
  | Action.throwAct :: _, _ => rfl

theorem subscribe_cases (env : Env) (t : String) (h : Nat) (handlers : List IHandler) :
    subscribe env t h handlers = handlers ∨
      subscribe env t h handlers = handlers ++ [⟨t, h⟩] := by
  rcases hfind : handlers.find? (fun it => it.type == t) with _ | r
  · rw [subscribe, hfind]
    exact Or.inr rfl
  · rw [subscribe, hfind]
    by_cases hk : (env.kindOf r.handler == env.kindOf h) = true
    · simp only [if_pos hk]
      exact Or.inl trivial
    · simp only [if_neg hk]
      exact Or.inr trivial

theorem append_singleton_ne (handlers : List IHandler) (r : IHandler) :
    handlers ++ [r] ≠ handlers := by
  intro heq
  have hlen := congrArg List.length heq
  simp at hlen

theorem dispatchLoop_trace_hids (env : Env) :
    ∀ (recs : List IHandler) (s : ServiceState) (tr : List Invocation),
      (dispatchLoop env recs s tr).2.2 = false →
      (dispatchLoop env recs s tr).2.1.map Invocation.hid =
        tr.map Invocation.hid ++ recs.map IHandler.handler
  | [], _, tr => fun _ => by simp [dispatchLoop]
  | r :: rest, s, tr => fun hok => by
      simp only [dispatchLoop] at hok ⊢
      by_cases hth : (runActions env (env.behavior r.handler) s).2 = true
      · rw [if_pos hth] at hok
        simp at hok
      · rw [if_neg hth] at hok ⊢
        rw [dispatchLoop_trace_hids env rest _ _ hok]
        simp

theorem dispatchLoop_final_pending (env : Env) :
    ∀ (recs : List IHandler) (s : ServiceState) (tr : List Invocation),
      (dispatchLoop env recs s tr).2.2 = false →
      (dispatchLoop env recs s tr).1.isPending =
        clearAll (recs.map IHandler.handler) s.isPending
  | [], _, tr => fun _ => rfl
  | r :: rest, s, tr => fun hok => by
      simp only [dispatchLoop] at hok ⊢
      by_cases hth : (runActions env (env.behavior r.handler) s).2 = true
      · rw [if_pos hth] at hok
        simp at hok
      · rw [if_neg hth] at hok ⊢
        rw [dispatchLoop_final_pending env rest _ _ hok]
        simp only [List.map_cons, clearAll]
        rw [runActions_isPending]

theorem dispatchLoop_trace_ok (env : Env) :
    ∀ (recs : List IHandler) (s : ServiceState) (tr : List Invocation),
      (dispatchLoop env recs s tr).2.2 = false →
      (dispatchLoop env recs s tr).2.1 =
        tr ++ (List.range recs.length).map (fun i =>
          ⟨(recs.getD i ⟨"", 0⟩).handler,
           clearAll ((recs.take i).map IHandler.handler) s.isPending⟩)
  | [], _, tr => fun _ => by simp [dispatchLoop]
  | r :: rest, s, tr => fun hok => by
      simp only [dispatchLoop] at hok ⊢
      by_cases hth : (runActions env (env.behavior r.handler) s).2 = true
      · rw [if_pos hth] at hok
        simp at hok
      · rw [if_neg hth] at hok ⊢
        rw [dispatchLoop_trace_ok env rest _ _ hok]
        simp only [runActions_isPending]
        rw [List.length_cons, List.range_succ_eq_map, List.map_cons, List.map_map,
          List.append_assoc, List.singleton_append]
        rfl

theorem dispatchLoop_throw (env : Env) :
    ∀ (recs : List IHandler) (s : ServiceState) (tr : List Invocation),
      (dispatchLoop env recs s tr).2.2 = true →
      ∃ k, k < recs.length ∧
        (dispatchLoop env recs s tr).2.1.map Invocation.hid =
          tr.map Invocation.hid ++ (recs.map IHandler.handler).take (k + 1) ∧
        (dispatchLoop env recs s tr).1.isPending =
          clearAll ((recs.map IHandler.handler).take k) s.isPending
  | [], _, tr => fun hok => by simp [dispatchLoop] at hok
  | r :: rest, s, tr => fun hok => by
      simp only [dispatchLoop] at hok ⊢
      by_cases hth : (runActions env (env.behavior r.handler) s).2 = true
      · rw [if_pos hth]
        refine ⟨0, Nat.succ_pos _, ?_, ?_⟩
        · simp
        · rw [runActions_isPending]
          rfl
      · rw [if_neg hth] at hok ⊢
        obtain ⟨k, hk, htr, hp⟩ := dispatchLoop_throw env rest _ _ hok
        refine ⟨k + 1, Nat.succ_lt_succ hk, ?_, ?_⟩
        · rw [htr]
          simp
        · rw [hp]
          simp only [runActions_isPending]
          rfl

theorem publish_not_thrown_trace (env : Env) (s : ServiceState) (e : IEventV)
    (hok : (publish env s e).2.2 = false) :
    (publish env s e).2.1 =
      (List.range (snapshotOf s e).length).map (fun i =>
        ⟨((snapshotOf s e).getD i ⟨"", 0⟩).handler,
         clearAll (((snapshotOf s e).take i).map IHandler.handler)
           (markAllPending (snapshotOf s e) s.isPending)⟩) := by
  by_cases h0 : s.handlers.length = 0
  · have he : s.handlers = [] := List.length_eq_zero.mp h0
    simp [publish, h0, snapshotOf, he]
  · rw [publish, if_neg h0] at hok ⊢
    exact dispatchLoop_trace_ok env (snapshotOf s e) _ _ hok

theorem publish_hid_at (env : Env) (s : ServiceState) (e : IEventV)
    (hok : (publish env s e).2.2 = false) (i : Nat)
    (hi : i < (snapshotOf s e).length) :
    ((publish env s e).2.1.getD i dInv).hid =
      ((snapshotOf s e).map IHandler.handler).getD i 0 := by
  rw [publish_not_thrown_trace env s e hok]
  rw [List.getD_eq_getElem _ _ (by simp [hi]), List.getD_eq_getElem _ _ (by simp [hi])]
  simp [List.getElem?_eq_getElem, hi]

theorem publish_pending_at (env : Env) (s : ServiceState) (e : IEventV)
    (hok : (publish env s e).2.2 = false) (i : Nat)
    (hi : i < (snapshotOf s e).length) (n : Nat) :
    ((publish env s e).2.1.getD i dInv).pendingAt n =
      if n ∈ (((snapshotOf s e).map IHandler.handler).take i) then false
      else if n ∈ (snapshotOf s e).map IHandler.handler then true
      else s.isPending n := by
  rw [publish_not_thrown_trace env s e hok]
  rw [List.getD_eq_getElem _ _ (by simp [hi])]
  simp only [List.getElem_map, List.getElem_range]
  simp only [clearAll_eval, markAllPending_eval, List.map_take]

theorem publish_final_pending (env : Env) (s : ServiceState) (e : IEventV)
    (hok : (publish env s e).2.2 = false) :
    (publish env s e).1.isPending =
      clearAll ((snapshotOf s e).map IHandler.handler)
        (markAllPending (snapshotOf s e) s.isPending) := by
  by_cases h0 : s.handlers.length = 0
  · have he : s.handlers = [] := List.length_eq_zero.mp h0
    simp [publish, h0, snapshotOf, he, clearAll, markAllPending]
  · rw [publish, if_neg h0] at hok ⊢
    exact dispatchLoop_final_pending env (snapshotOf s e) _ _ hok

theorem nodup_getElem_not_mem_take {L : List Nat} (hnd : L.Nodup) {i j : Nat}
    (hj : j < L.length) (hij : i ≤ j) : L[j] ∉ L.take i := by
  intro hmem
  obtain ⟨m, hm, hmm⟩ := List.mem_iff_getElem.mp hmem
  rw [List.length_take] at hm
  have hmL : m < L.length := by omega
  rw [List.getElem_take] at hmm
  have heq : m = j := (List.Nodup.getElem_inj_iff hnd).mp hmm
  omega

theorem getElem_mem_take {L : List Nat} {i j : Nat} (hj : j < L.length)
    (hji : j < i) : L[j] ∈ L.take i := by
  apply List.mem_iff_getElem.mpr
  refine ⟨j, by rw [List.length_take]; omega, ?_⟩
  exact List.getElem_take L

/-! Claim theorems. -/

/-- Claim C1: for every `publish(event)` call that completes normally, the
recipients whose `handle` is invoked are exactly the registry records whose
type equals `event.type()` at the moment publish begins, visited in
registry (insertion) order; re-entrant subscribe/unsubscribe calls made by
the invoked handlers during the same publish call do not add to or remove
from this set — the loop iterates the frozen snapshot, not the live
registry, so those calls only affect the final state and hence future
publish calls. -/
theorem publish_recipients_eq_snapshot (env : Env) (s : ServiceState)
    (e : IEventV) (hok : (publish env s e).2.2 = false) :
    (publish env s e).2.1.map Invocation.hid =
      (snapshotOf s e).map IHandler.handler := by
  by_cases h0 : s.handlers.length = 0
  · have he : s.handlers = [] := List.length_eq_zero.mp h0
    simp [publish, h0, snapshotOf, he]
  · rw [publish, if_neg h0] at hok ⊢
    simpa using dispatchLoop_trace_hids env (snapshotOf s e) _ _ hok

/-- Witness for `publish_recipients_eq_snapshot` at a concrete input. -/
theorem publish_recipients_eq_snapshot_witness :
    (publish envC1 stC1 ⟨"sale", "001"⟩).2.2 = false
    ∧ (publish envC1 stC1 ⟨"sale", "001"⟩).2.1.map Invocation.hid =
        (snapshotOf stC1 ⟨"sale", "001"⟩).map IHandler.handler :=
  ⟨by decide, publish_recipients_eq_snapshot envC1 stC1 ⟨"sale", "001"⟩ (by decide)⟩

/-- Claim C5: instances 0, 1, 2 of distinct kinds subscribed in that order
to type `x`; instance 1's `handle` unsubscribes instance 2.  The first
`x` publish still invokes 0, 1 and 2 (2 was in the pre-publish snapshot);
a second `x` publish on the resulting state invokes only 0 and 1. -/
theorem scenario_unsubscribe_during_publish :
    (publish envC5 ⟨regC5, fun _ => false⟩ ⟨"x", "m1"⟩).2.1.map Invocation.hid
      = [0, 1, 2]
    ∧ (publish envC5 (publish envC5 ⟨regC5, fun _ => false⟩ ⟨"x", "m1"⟩).1
        ⟨"x", "m2"⟩).2.1.map Invocation.hid = [0, 1] := by
  decide

/-- Claim C6: unmatched lookups are successful no-ops.  Publishing an event
whose type matches no registry record (including on an empty registry)
invokes no handler, reports no thrown exception and leaves the whole state
unchanged; unsubscribing a type, or a (type, handler) pair, with no
matching record leaves the registry unchanged. -/
theorem unmatched_lookups_are_noops :
    (∀ (env : Env) (s : ServiceState) (e : IEventV),
        (∀ r ∈ s.handlers, r.type ≠ e.etype) →
        publish env s e = (s, [], false))
    ∧ (∀ (env : Env) (t : String) (handlers : List IHandler),
        (∀ r ∈ handlers, r.type ≠ t) →
        unsubscribe env t none handlers = handlers)
    ∧ (∀ (env : Env) (t : String) (k : Nat) (handlers : List IHandler),
        (∀ r ∈ handlers, ¬(r.type = t ∧ env.kindOf r.handler = env.kindOf k)) →
        unsubscribe env t (some k) handlers = handlers) := by
  refine ⟨?_, ?_, ?_⟩
  · intro env s e hmatch
    have hsnap : snapshotOf s e = [] := by
      apply List.filter_eq_nil_iff.mpr
      intro r hr
      simpa using hmatch r hr
    by_cases h0 : s.handlers.length = 0
    · rw [publish, if_pos h0]
    · rw [publish, if_neg h0, hsnap]
      rfl
  · intro env t handlers hmatch
    unfold unsubscribe
    apply List.filter_eq_self.mpr
    intro r hr
    simpa using hmatch r hr
  · intro env t k handlers hmatch
    unfold unsubscribe
    apply List.filter_eq_self.mpr
    intro r hr
    have h := hmatch r hr
    by_cases h1 : r.type = t
    · have h2 : env.kindOf r.handler ≠ env.kindOf k := fun h2 => h ⟨h1, h2⟩
      simp [h2]
    · simp [h1]

/-- Witness for `unmatched_lookups_are_noops` at concrete inputs. -/
theorem unmatched_lookups_are_noops_witness :
    publish envC1 stC6 ⟨"b", "m"⟩ = (stC6, [], false)
    ∧ unsubscribe envC1 "zzz" none stC6.handlers = stC6.handlers
    ∧ unsubscribe envC1 "a" (some 1) stC6.handlers = stC6.handlers :=
  ⟨unmatched_lookups_are_noops.1 envC1 stC6 ⟨"b", "m"⟩ (by decide),
   unmatched_lookups_are_noops.2.1 envC1 "zzz" stC6.handlers (by decide),
   unmatched_lookups_are_noops.2.2 envC1 "a" 1 stC6.handlers (by decide)⟩

/-- Claim C7: a `MachineSaleEvent` constructed from `(sold, machineId)`
answers `type()` with `"sale"`, `machineId()` with the constructed id and
`getSoldQuantity()` with the constructed quantity, and likewise a
`MachineRefillEvent` answers `"refill"`, the constructed id and the
constructed refill quantity.  Both classes only have `readonly` fields, so
the instances are embedded as immutable values: no dispatcher operation
can mutate them, and the accessors return the constructed values on every
call. -/
theorem machine_event_accessors :
    (∀ (sold : Int) (mid : String),
        MachineSaleEvent.type ⟨sold, mid⟩ = "sale"
        ∧ MachineSaleEvent.machineId ⟨sold, mid⟩ = mid
        ∧ MachineSaleEvent.getSoldQuantity ⟨sold, mid⟩ = sold)
    ∧ (∀ (refill : Int) (mid : String),
        MachineRefillEvent.type ⟨refill, mid⟩ = "refill"
        ∧ MachineRefillEvent.machineId ⟨refill, mid⟩ = mid
        ∧ MachineRefillEvent.getRefillQuantity ⟨refill, mid⟩ = refill) :=
  ⟨fun _ _ => ⟨rfl, rfl, rfl⟩, fun _ _ => ⟨rfl, rfl, rfl⟩⟩

/-- Claim C2 counterexample: under `envC2` the registry
`[⟨x,0⟩, ⟨x,1⟩]` — reachable by subscribing instance 0 (kind `A`) and then
instance 1 (kind `B`) — already contains the record `⟨x,1⟩`, yet
`subscribe("x", 1)` is not a no-op: `find` only inspects the first record
of type `x` (kind `A`), so a second `⟨x,1⟩` record is appended and the
registry ends up with two records of the same (type, kind) pair,
contradicting the claimed uniqueness invariant. -/
theorem subscribe_dedup_counterexample :
    subscribe envC2 "x" 1 (subscribe envC2 "x" 0 []) = [⟨"x", 0⟩, ⟨"x", 1⟩]
    ∧ (⟨"x", 1⟩ : IHandler) ∈ [(⟨"x", 0⟩ : IHandler), ⟨"x", 1⟩]
    ∧ envC2.kindOf 1 = envC2.kindOf 1
    ∧ subscribe envC2 "x" 1 [⟨"x", 0⟩, ⟨"x", 1⟩] ≠ [⟨"x", 0⟩, ⟨"x", 1⟩]
    ∧ subscribe envC2 "x" 1 [⟨"x", 0⟩, ⟨"x", 1⟩] =
        [⟨"x", 0⟩, ⟨"x", 1⟩, ⟨"x", 1⟩] := by
  decide

/-- Claim C2 amended: `subscribe(type, handler)` either leaves the registry
unchanged or appends exactly one record at the end, and it is a no-op
exactly when the FIRST record whose type matches exists and its handler has
the same handler-kind identity as the new handler.  (The source checks only
that first record, so a duplicate (type, kind) pair can arise when a record
of a different kind precedes it.) -/
theorem subscribe_appends_unless_first_record_same_kind (env : Env)
    (t : String) (h : Nat) (handlers : List IHandler) :
    (subscribe env t h handlers = handlers ∨
       subscribe env t h handlers = handlers ++ [⟨t, h⟩])
    ∧ (subscribe env t h handlers = handlers ↔
        ∃ r, handlers.find? (fun it => it.type == t) = some r ∧
          env.kindOf r.handler = env.kindOf h) := by
  refine ⟨subscribe_cases env t h handlers, ?_⟩
  rcases hfind : handlers.find? (fun it => it.type == t) with _ | r
  · rw [subscribe, hfind]
    constructor
    · intro heq
      exact absurd heq (append_singleton_ne handlers ⟨t, h⟩)
    · rintro ⟨r, hr, -⟩
      cases hr
  · rw [subscribe, hfind]
    by_cases hk : (env.kindOf r.handler == env.kindOf h) = true
    · simp only [if_pos hk]
      constructor
      · intro _
        exact ⟨r, rfl, by simpa using hk⟩
      · intro _
        trivial
    · simp only [if_neg hk]
      constructor
      · intro heq
        exact absurd heq (append_singleton_ne handlers ⟨t, h⟩)
      · rintro ⟨r2, hr2, hkind⟩
        simp only [Option.some.injEq] at hr2
        subst hr2
        exact absurd (by simpa using hkind) hk

/-- Witness for `subscribe_appends_unless_first_record_same_kind`: the
no-op direction of the iff at a concrete registry whose first `x` record
has the same kind as the subscribed handler. -/
theorem subscribe_appends_unless_first_record_same_kind_witness :
    subscribe envC2 "x" 2 [⟨"x", 1⟩] = [⟨"x", 1⟩] :=
  (subscribe_appends_unless_first_record_same_kind envC2 "x" 2
      [⟨"x", 1⟩]).2.mpr ⟨⟨"x", 1⟩, by decide, by decide⟩

/-- Claim C4: `unsubscribe(type, handler?)` agrees with the spec's removal
criterion: with `handler` omitted it removes every record whose type
matches; with `handler` supplied it removes exactly the records whose type
matches and whose handler has the same handler-kind identity
(`constructor.name`) — and therefore two distinct instances of the same
kind are interchangeable as the `handler` argument. -/
theorem unsubscribe_matches_spec (env : Env) (t : String)
    (handler : Option Nat) (handlers : List IHandler) (k k2 : Nat)
    (hk : env.kindOf k = env.kindOf k2) :
    unsubscribe env t handler handlers = unsubscribeSpec env t handler handlers
    ∧ unsubscribe env t (some k) handlers = unsubscribe env t (some k2) handlers := by
  constructor
  · unfold unsubscribe unsubscribeSpec
    apply List.filter_congr
    intro r _
    cases handler with
    | none => rfl
    | some h => simp [Bool.not_and]
  · unfold unsubscribe
    apply List.filter_congr
    intro r _
    show (!(r.type == t) || !(env.kindOf r.handler == env.kindOf k)) =
      (!(r.type == t) || !(env.kindOf r.handler == env.kindOf k2))
    rw [hk]

/-- Witness for `unsubscribe_matches_spec`: instances 0 and 1 share a kind
in `envC4`, and unsubscribing with instance 0 removes the record held by
instance 1. -/
theorem unsubscribe_matches_spec_witness :
    envC4.kindOf 0 = envC4.kindOf 1
    ∧ (unsubscribe envC4 "s" (some 0) [⟨"s", 1⟩, ⟨"s", 2⟩] =
         unsubscribeSpec envC4 "s" (some 0) [⟨"s", 1⟩, ⟨"s", 2⟩]
       ∧ unsubscribe envC4 "s" (some 0) [⟨"s", 1⟩, ⟨"s", 2⟩] =
           unsubscribe envC4 "s" (some 1) [⟨"s", 1⟩, ⟨"s", 2⟩]) :=
  ⟨by decide,
   unsubscribe_matches_spec envC4 "s" (some 0) [⟨"s", 1⟩, ⟨"s", 2⟩] 0 1 (by decide)⟩

/-- Claim C10: frame conditions of the registry operations.  `subscribe`
either leaves the registry identical or appends exactly one record at the
end (so every pre-existing record is unchanged and keeps its position);
`unsubscribe` returns a sublist of the registry (only removals, relative
order of the survivors preserved), and every record it drops matches its
removal criterion (its type equals the given type, and, when a handler is
supplied, its handler kind equals the supplied handler's kind). -/
theorem registry_frame_conditions (env : Env) (t : String) (h : Nat)
    (k : Option Nat) (handlers : List IHandler) :
    (subscribe env t h handlers = handlers ∨
       subscribe env t h handlers = handlers ++ [⟨t, h⟩])
    ∧ List.Sublist (unsubscribe env t k handlers) handlers
    ∧ (∀ r ∈ handlers, r ∉ unsubscribe env t k handlers →
        r.type = t ∧ ∀ k0, k = some k0 →
          env.kindOf r.handler = env.kindOf k0) := by
  refine ⟨subscribe_cases env t h handlers, ?_, ?_⟩
  · unfold unsubscribe
    exact List.filter_sublist handlers
  · intro r hr hnot
    cases k with
    | none =>
        unfold unsubscribe at hnot
        simp only [List.mem_filter, hr, true_and] at hnot
        refine ⟨?_, fun k0 hk0 => by cases hk0⟩
        simpa using hnot
    | some k0 =>
        unfold unsubscribe at hnot
        simp only [List.mem_filter, hr, true_and] at hnot
        have hp : (r.type = t) ∧ env.kindOf r.handler = env.kindOf k0 := by
          by_cases h1 : r.type = t
          · by_cases h2 : env.kindOf r.handler = env.kindOf k0
            · exact ⟨h1, h2⟩
            · exact absurd (by simp [h2]) hnot
          · exact absurd (by simp [h1]) hnot
        exact ⟨hp.1, fun k1 hk1 => by
          simp only [Option.some.injEq] at hk1
          subst hk1
          exact hp.2⟩

/-- Witness for `registry_frame_conditions` at a concrete input. -/
theorem registry_frame_conditions_witness :
    List.Sublist (unsubscribe envC10 "x" (some 7) [⟨"x", 5⟩, ⟨"y", 6⟩])
      [(⟨"x", 5⟩ : IHandler), ⟨"y", 6⟩] :=
  (registry_frame_conditions envC10 "x" 7 (some 7) [⟨"x", 5⟩, ⟨"y", 6⟩]).2.1

/-- Claim C3 counterexample: two recipients (instances 0 and 1, distinct
kinds, both subscribed to `x`).  At the first invocation — while instance 0
executes — instance 1's `isPending` flag is already `true`, because the
`.map` phase of `publish` sets every matching handler's flag before the
first `handle` call; the claim says it should be `false` before instance
1's own turn. -/
theorem pending_set_before_own_turn_counterexample :
    (publish envC3 stC3 ⟨"x", "m"⟩).2.1.map Invocation.hid = [0, 1]
    ∧ (publish envC3 stC3 ⟨"x", "m"⟩).2.1.map (fun inv => inv.pendingAt 1) =
        [true, true] := by
  decide

/-- Claim C3 amended: when the snapshot holds pairwise-distinct instances
and publish completes normally, a handler's flag is `true` at the start of
its own invocation, is `false` at the start of every later invocation of
the same publish call, and is `false` once publish returns.  (Amended from
the original claim: before the handler's own turn the flag is already
`true` — it is set for the whole snapshot when publish begins, not
immediately before each invocation.) -/
theorem pending_cleared_after_own_invocation (env : Env) (s : ServiceState)
    (e : IEventV)
    (hnd : ((snapshotOf s e).map IHandler.handler).Nodup)
    (hok : (publish env s e).2.2 = false)
    (i : Nat) (hi : i < (snapshotOf s e).length) :
    ((publish env s e).2.1.getD i dInv).pendingAt
        (((publish env s e).2.1.getD i dInv).hid) = true
    ∧ (∀ j, j < (snapshotOf s e).length → i < j →
        ((publish env s e).2.1.getD j dInv).pendingAt
          (((publish env s e).2.1.getD i dInv).hid) = false)
    ∧ (publish env s e).1.isPending
        (((publish env s e).2.1.getD i dInv).hid) = false := by
  have hiL : i < ((snapshotOf s e).map IHandler.handler).length := by
    simpa using hi
  have hhid : ((publish env s e).2.1.getD i dInv).hid =
      ((snapshotOf s e).map IHandler.handler)[i] := by
    rw [publish_hid_at env s e hok i hi, List.getD_eq_getElem _ _ hiL]
  refine ⟨?_, ?_, ?_⟩
  · rw [hhid, publish_pending_at env s e hok i hi]
    rw [if_neg (nodup_getElem_not_mem_take hnd hiL (le_refl i))]
    rw [if_pos (List.getElem_mem hiL)]
  · intro j hj hij
    rw [hhid, publish_pending_at env s e hok j hj]
    rw [if_pos (getElem_mem_take hiL hij)]
  · rw [hhid, publish_final_pending env s e hok]
    rw [clearAll_eval, if_pos (List.getElem_mem hiL)]

/-- Witness for `pending_cleared_after_own_invocation` at a concrete
input. -/
theorem pending_cleared_after_own_invocation_witness :
    ((snapshotOf stC3w ⟨"w", "m"⟩).map IHandler.handler).Nodup
    ∧ (publish envC3w stC3w ⟨"w", "m"⟩).2.2 = false
    ∧ (((publish envC3w stC3w ⟨"w", "m"⟩).2.1.getD 0 dInv).pendingAt
          (((publish envC3w stC3w ⟨"w", "m"⟩).2.1.getD 0 dInv).hid) = true
        ∧ (∀ j, j < (snapshotOf stC3w ⟨"w", "m"⟩).length → 0 < j →
            ((publish envC3w stC3w ⟨"w", "m"⟩).2.1.getD j dInv).pendingAt
              (((publish envC3w stC3w ⟨"w", "m"⟩).2.1.getD 0 dInv).hid) = false)
        ∧ (publish envC3w stC3w ⟨"w", "m"⟩).1.isPending
            (((publish envC3w stC3w ⟨"w", "m"⟩).2.1.getD 0 dInv).hid) = false) :=
  ⟨by decide, by decide,
   pending_cleared_after_own_invocation envC3w stC3w ⟨"w", "m"⟩ (by decide)
     (by decide) 0 (by decide)⟩

/-- Claim C8 counterexample: the registry `regC8 = [x0, x1, x2, x1]` is
reachable through the public API (the duplicate slips past the first-match
de-duplication check), and publishing `x` yields the invocation sequence
`0, 1, 2, 1`.  While the third recipient (index 2, instance 2) executes,
the LATER recipient at index 3 (instance 1) already has `isPending =
false` — its flag was cleared after instance 1's earlier invocation — so
the claimed timeline fails for snapshots holding a duplicate instance. -/
theorem pending_timeline_counterexample :
    regC8 = [⟨"x", 0⟩, ⟨"x", 1⟩, ⟨"x", 2⟩, ⟨"x", 1⟩]
    ∧ (publish envC8 ⟨regC8, fun _ => false⟩ ⟨"x", "m"⟩).2.1.map Invocation.hid
        = [0, 1, 2, 1]
    ∧ (publish envC8 ⟨regC8, fun _ => false⟩ ⟨"x", "m"⟩).2.1.map
        (fun inv => inv.pendingAt 1) = [true, true, false, false] := by
  decide

/-- Claim C8 amended: when the snapshot holds pairwise-distinct instances
and publish completes normally, every flag in the snapshot is set before
the first invocation and cleared only after the owner's own invocation;
hence at the start of the `i`-th invocation every recipient at a position
`j ≥ i` still has `isPending = true` and every recipient at a position
`j < i` has `isPending = false`.  (Amended from the original claim by the
pairwise-distinct hypothesis: with a duplicate instance in the snapshot a
later occurrence can already show `false`.) -/
theorem pending_timeline (env : Env) (s : ServiceState) (e : IEventV)
    (hnd : ((snapshotOf s e).map IHandler.handler).Nodup)
    (hok : (publish env s e).2.2 = false)
    (i j : Nat) (hi : i < (snapshotOf s e).length)
    (hj : j < (snapshotOf s e).length) :
    (i ≤ j →
      ((publish env s e).2.1.getD i dInv).pendingAt
        (((publish env s e).2.1.getD j dInv).hid) = true)
    ∧ (j < i →
      ((publish env s e).2.1.getD i dInv).pendingAt
        (((publish env s e).2.1.getD j dInv).hid) = false) := by
  have hjL : j < ((snapshotOf s e).map IHandler.handler).length := by
    simpa using hj
  have hhid : ((publish env s e).2.1.getD j dInv).hid =
      ((snapshotOf s e).map IHandler.handler)[j] := by
    rw [publish_hid_at env s e hok j hj, List.getD_eq_getElem _ _ hjL]
  constructor
  · intro hij
    rw [hhid, publish_pending_at env s e hok i hi]
    rw [if_neg (nodup_getElem_not_mem_take hnd hjL hij)]
    rw [if_pos (List.getElem_mem hjL)]
  · intro hij
    rw [hhid, publish_pending_at env s e hok i hi]
    rw [if_pos (getElem_mem_take hjL hij)]

/-- Witness for `pending_timeline` at a concrete input. -/
theorem pending_timeline_witness :
    ((snapshotOf stC8w ⟨"v", "m"⟩).map IHandler.handler).Nodup
    ∧ (publish envC8w stC8w ⟨"v", "m"⟩).2.2 = false
    ∧ ((publish envC8w stC8w ⟨"v", "m"⟩).2.1.getD 0 dInv).pendingAt
        (((publish envC8w stC8w ⟨"v", "m"⟩).2.1.getD 1 dInv).hid) = true :=
  ⟨by decide, by decide,
   (pending_timeline envC8w stC8w ⟨"v", "m"⟩ (by decide) (by decide) 0 1
       (by decide) (by decide)).1 (by decide)⟩

/-- Claim C9 counterexample: the registry `regC9 = [t0, t1, t2, t1]` is
reachable through the public API, instance 2's `handle` throws.  Publishing
`t` propagates the exception after invoking `0, 1, 2`; the record at index
3 (instance 1) is matching and was never visited for its own turn, yet
after publish exits instance 1's `isPending` flag is `false` (it was
cleared after instance 1's earlier invocation), refuting the claim that
every not-yet-visited matching handler's flag remains `true`. -/
theorem throw_pending_counterexample :
    regC9 = [⟨"t", 0⟩, ⟨"t", 1⟩, ⟨"t", 2⟩, ⟨"t", 1⟩]
    ∧ (publish envC9 ⟨regC9, fun _ => false⟩ ⟨"t", "m"⟩).2.2 = true
    ∧ (publish envC9 ⟨regC9, fun _ => false⟩ ⟨"t", "m"⟩).2.1.map Invocation.hid
        = [0, 1, 2]
    ∧ (publish envC9 ⟨regC9, fun _ => false⟩ ⟨"t", "m"⟩).1.isPending 1 = false := by
  decide

/-- Claim C9 amended: when the snapshot holds pairwise-distinct instances
and some recipient throws, the exception propagates out of `publish`; the
recipients invoked are exactly the snapshot prefix ending with the thrower
at some position `k` (the remaining recipients are not invoked), and the
flags of the thrower and of every recipient from position `k` on remain
`true` when publish exits.  (Amended from the original claim by the
pairwise-distinct hypothesis: a not-yet-visited record whose instance
already completed an earlier occurrence in the same snapshot shows
`false`.) -/
theorem publish_throw_behavior (env : Env) (s : ServiceState) (e : IEventV)
    (hnd : ((snapshotOf s e).map IHandler.handler).Nodup)
    (hthrew : (publish env s e).2.2 = true) :
    ∃ k, k < (snapshotOf s e).length ∧
      (publish env s e).2.1.map Invocation.hid =
        ((snapshotOf s e).map IHandler.handler).take (k + 1) ∧
      ∀ n ∈ ((snapshotOf s e).map IHandler.handler).drop k,
        (publish env s e).1.isPending n = true := by
  by_cases h0 : s.handlers.length = 0
  · rw [publish, if_pos h0] at hthrew
    simp at hthrew
  · rw [publish, if_neg h0] at hthrew ⊢
    obtain ⟨k, hk, htr, hp⟩ := dispatchLoop_throw env (snapshotOf s e) _ _ hthrew
    rw [← List.take_append_drop k ((snapshotOf s e).map IHandler.handler)] at hnd
    obtain ⟨-, -, hdisj⟩ := List.nodup_append.mp hnd
    refine ⟨k, hk, by simpa using htr, ?_⟩
    intro n hn
    rw [hp]
    rw [clearAll_eval, if_neg (fun hmem => hdisj hmem hn)]
    show markAllPending (snapshotOf s e) s.isPending n = true
    rw [markAllPending_eval,
      if_pos ((List.drop_sublist k ((snapshotOf s e).map IHandler.handler)).subset hn)]

/-- Witness for `publish_throw_behavior` at a concrete input: three
distinct instances subscribed to `u`, the second one throws. -/
theorem publish_throw_behavior_witness :
    ((snapshotOf stC9w ⟨"u", "m"⟩).map IHandler.handler).Nodup
    ∧ (publish envC9w stC9w ⟨"u", "m"⟩).2.2 = true
    ∧ ∃ k, k < (snapshotOf stC9w ⟨"u", "m"⟩).length ∧
        (publish envC9w stC9w ⟨"u", "m"⟩).2.1.map Invocation.hid =
          ((snapshotOf stC9w ⟨"u", "m"⟩).map IHandler.handler).take (k + 1) ∧
        ∀ n ∈ ((snapshotOf stC9w ⟨"u", "m"⟩).map IHandler.handler).drop k,
          (publish envC9w stC9w ⟨"u", "m"⟩).1.isPending n = true :=
  ⟨by decide, by decide,
   publish_throw_behavior envC9w stC9w ⟨"u", "m"⟩ (by decide) (by decide)⟩

end SimplePubSub
